import Mathlib

/-!
Shallow embedding of the Project-Task-APIs repository (Django REST app).

The parts of the code relevant to the claims live in:
* `src/project/enum.py` — the `Status` text choices;
* `src/project/models.py` — `Project`, `Task`, `TimeEntry` (with its
  overridden `save`), `has_active_timer`, `active_timer`;
* `src/project/api/api.py` — the `start_timer` / `stop_timer` views, the
  `dashboard_overview` view with its nested `format_duration`, and the cache
  interaction (`django.core.cache`).

Modelling conventions:
* timestamps and durations are integers in seconds (`Int`); the calendar
  date of a timestamp (Django's `__date` lookup) is its day number
  `t.fdiv 86400`;
* a `datetime` is always truthy in Python, so `if self.end_time and
  self.start_time` in `TimeEntry.save` reduces to `end_time is not None`
  (`start_time` is a non-nullable column);
* primary keys are `Nat`; the UUID chosen for a freshly created row is an
  explicit argument of the operation;
* the dashboard's `start_date` / `end_date` query parameters are modelled
  already parsed, as optional day numbers; the cache key interpolation
  `f"dashboard_metrics_{start_date}_{end_date}"` renders an absent
  parameter as the Python literal string `"None"` and a present one by its
  decimal representation (standing in for the raw `YYYY-MM-DD` text, which
  is never equal to `"None"`);
* the Django cache is an association list from string keys to dashboard
  payloads; `cache.get` misses are `none`, and a stored payload is a
  non-empty dict, hence truthy, so `if cached_data:` is an `isSome` test;
* Django's `Sum` aggregate ignores NULL values and returns NULL (here
  `none`) when no non-NULL value is aggregated.
-/

deriving instance DecidableEq for Except

namespace ProjectTaskAPI

/-- `project/enum.py`: `Status(models.TextChoices)` with members
`TODO = 'todo'`, `IN_PROGRESS = 'in_progress'`, `DONE = 'done'`. -/
inductive Status where
  | todo
  | in_progress
  | done
deriving DecidableEq, Repr

/-- `Status.choices` — the list of the three declared choices, in
declaration order. -/
def Status.choices : List Status :=
  [Status.todo, Status.in_progress, Status.done]

/-- `project/models.py`: the `Project` model (fields used by the claims). -/
structure Project where
  id : Nat
  title : String
deriving DecidableEq, Repr

/-- `project/models.py`: the `Task` model (fields used by the claims).
`estimated_time` and `spent_time` are `DurationField`s, in seconds. -/
structure Task where
  id : Nat
  projectId : Nat
  status : Status
  estimated_time : Int
  spent_time : Int
deriving DecidableEq, Repr

/-- `project/models.py`: the `TimeEntry` model. `start_time` is a
non-nullable timestamp; `end_time` and `duration` are nullable. -/
structure TimeEntry where
  id : Nat
  taskId : Nat
  start_time : Int
  end_time : Option Int
  duration : Option Int
deriving DecidableEq, Repr

/-- `TimeEntry.save` (models.py lines 131-135): before persisting, if both
`end_time` and `start_time` are set (`start_time` always is, and datetimes
are truthy), overwrite `duration` with `end_time - start_time`. -/
def TimeEntry.save (e : TimeEntry) : TimeEntry :=
  match e.end_time with
  | some t => { e with duration := some (t - e.start_time) }
  | none => e

/-- The persistent store: the three tables. -/
structure DB where
  projects : List Project
  tasks : List Task
  timeEntries : List TimeEntry
deriving DecidableEq, Repr

/-- `Task.has_active_timer`: `self.time_entries.filter(end_time__isnull=True).exists()`. -/
def has_active_timer (db : DB) (taskId : Nat) : Bool :=
  db.timeEntries.any (fun e => e.taskId == taskId && e.end_time.isNone)

/-- `Task.active_timer`: `self.time_entries.filter(end_time__isnull=True).first()`.
The queryset default-orders by `-start_time`, but the partial unique
constraint `unique_active_timer_per_task` allows at most one match, so the
first match in table order is the same entry. -/
def active_timer (db : DB) (taskId : Nat) : Option TimeEntry :=
  db.timeEntries.find? (fun e => e.taskId == taskId && e.end_time.isNone)

/-- The error outcomes of the timer views (api.py): task lookup failure,
starting when a timer is already active, stopping when none is. -/
inductive TimerError where
  | taskNotFound
  | alreadyActive
  | noActiveTimer
deriving DecidableEq, Repr

/-- The HTTP status each timer error is returned with (api.py lines
280-283, 303-307, 359-363, 382-386). -/
def TimerError.httpStatus : TimerError → Nat
  | TimerError.taskNotFound => 404
  | TimerError.alreadyActive => 400
  | TimerError.noActiveTimer => 400

/-- The JSON error message each timer error is returned with. -/
def TimerError.message : TimerError → String
  | TimerError.taskNotFound => "Task not found"
  | TimerError.alreadyActive => "Task already has an active timer"
  | TimerError.noActiveTimer => "No active timer found for this task"

/-- `ProjectTime`: one element of the dashboard's `time_spent_per_project`
list (api.py lines 545-549 and 551-558). -/
structure ProjectTime where
  project_id : String
  project_title : String
  spent_time : String
deriving DecidableEq, Repr

/-- The dashboard payload (api.py lines 561-569). `task_counts` is the
status-count dict as an association list; `date_range_filter` is the
echoed filter dict, empty when no bound was supplied (in which case the
key is not added to the payload). -/
structure DashboardData where
  task_counts : List (Status × Nat)
  total_estimated_time : String
  total_spent_time : String
  time_spent_per_project : List ProjectTime
  date_range_filter : List (String × String)
deriving DecidableEq, Repr

/-- The Django cache, restricted to the dashboard payloads this code
stores in it. TTLs are not modelled: every claim is about eager eviction,
not expiry. -/
abbrev Cache := List (String × DashboardData)

/-- `cache.get(key)`. -/
def cacheGet (c : Cache) (key : String) : Option DashboardData :=
  (List.find? (fun kv => kv.1 == key) c).map (fun kv => kv.2)

/-- `cache.set(key, data, ttl)` — overwrite any previous value at `key`. -/
def cacheSet (c : Cache) (key : String) (data : DashboardData) : Cache :=
  (key, data) :: List.filter (fun kv => !(kv.1 == key)) c

/-- `cache.delete(key)`. -/
def cacheDelete (c : Cache) (key : String) : Cache :=
  List.filter (fun kv => !(kv.1 == key)) c

/-- The two `cache.delete` calls both timer views perform on success
(api.py lines 296-298 and 375-377): the literal key `'dashboard_metrics'`
and `f'project_{task.project.id}_metrics'`. -/
def timerCacheEvict (projectId : Nat) (c : Cache) : Cache :=
  cacheDelete (cacheDelete c "dashboard_metrics")
    ("project_" ++ toString projectId ++ "_metrics")

/-- Replace the status of every task row matching `taskId`
(`task.save(update_fields=['status'])` persists the new status under the
task's primary key). -/
def setTaskStatus (db : DB) (taskId : Nat) (s : Status) : DB :=
  { db with
    tasks := db.tasks.map (fun t => if t.id == taskId then { t with status := s } else t) }

/-- `start_timer` view (api.py lines 270-313). Looks up the task, rejects
if an active timer exists, otherwise creates a new open `TimeEntry` at the
current time, promotes a `todo` task to `in_progress`, and evicts the two
cache keys. `newId` is the primary key the store assigns to the created
row. The whole view runs in one transaction, so an error branch leaves the
store untouched. -/
def start_timer (taskId : Nat) (now : Int) (newId : Nat) (db : DB) (c : Cache) :
    DB × Cache × Except TimerError TimeEntry :=
  match db.tasks.find? (fun t => t.id == taskId) with
  | none => (db, c, Except.error TimerError.taskNotFound)
  | some task =>
    if has_active_timer db taskId then
      (db, c, Except.error TimerError.alreadyActive)
    else
      let entry := TimeEntry.save
        { id := newId, taskId := taskId, start_time := now,
          end_time := none, duration := none }
      let db1 : DB := { db with timeEntries := db.timeEntries ++ [entry] }
      let db2 : DB :=
        if task.status = Status.todo then setTaskStatus db1 taskId Status.in_progress
        else db1
      (db2, timerCacheEvict task.projectId c, Except.ok entry)

/-- `stop_timer` view (api.py lines 349-392). Looks up the task and its
active timer, rejects if none, otherwise sets `end_time` and `duration`
on the entry, saves it, adds the duration to the task's `spent_time`, and
evicts the two cache keys. -/
def stop_timer (taskId : Nat) (now : Int) (db : DB) (c : Cache) :
    DB × Cache × Except TimerError TimeEntry :=
  match db.tasks.find? (fun t => t.id == taskId) with
  | none => (db, c, Except.error TimerError.taskNotFound)
  | some task =>
    match active_timer db taskId with
    | none => (db, c, Except.error TimerError.noActiveTimer)
    | some entry =>
      let stopped := TimeEntry.save
        { entry with end_time := some now, duration := some (now - entry.start_time) }
      let db1 : DB :=
        { db with
          timeEntries := db.timeEntries.map (fun e => if e.id == entry.id then stopped else e) }
      let db2 : DB :=
        { db1 with
          tasks := db1.tasks.map (fun t =>
            if t.id == taskId then { t with spent_time := t.spent_time + (now - entry.start_time) }
            else t) }
      (db2, timerCacheEvict task.projectId c, Except.ok stopped)

/-- Python's `f"{n:02d}"`: the decimal representation, left-padded with a
zero when it is a single character. -/
def pad2 (n : Int) : String :=
  let s := toString n
  if s.length < 2 then "0" ++ s else s

/-- The nested `format_duration` helper of `dashboard_overview` (api.py
lines 518-524). `if not duration:` is the Python falsy test, true both for
`None` and for a zero duration. `divmod` on integers is floored division
and remainder. -/
def format_duration : Option Int → String
  | none => "00:00"
  | some d =>
    if d = 0 then "00:00"
    else
      let hours := d.fdiv 3600
      let remainder := d.fmod 3600
      let minutes := remainder.fdiv 60
      pad2 hours ++ ":" ++ pad2 minutes

/-- Django's `Sum` aggregate: NULL inputs are skipped; the result is NULL
when nothing was aggregated, else the sum. -/
def djangoSum (xs : List (Option Int)) : Option Int :=
  let vs := xs.filterMap id
  if vs.isEmpty then none else some vs.sum

/-- Python's `x or timedelta()` applied to an optional duration: `None`
(and a zero duration) become the zero duration. -/
def pyOrZero : Option Int → Int
  | none => 0
  | some d => d

/-- Django's `start_time__date` lookup: the calendar date of a timestamp,
as a day number. -/
def dateOf (t : Int) : Int := t.fdiv 86400

/-- The two optional queryset filters `start_time__date__gte` and
`start_time__date__lte` applied by `dashboard_overview` (api.py lines
474-498), as one predicate. -/
def inDateRange (sd ed : Option Int) (e : TimeEntry) : Bool :=
  (match sd with
   | none => true
   | some d => decide (d ≤ dateOf e.start_time)) &&
  (match ed with
   | none => true
   | some d => decide (dateOf e.start_time ≤ d))

/-- The project a time entry belongs to, through its task
(`task__project`). -/
def taskProjectId (db : DB) (taskId : Nat) : Option Nat :=
  (db.tasks.find? (fun t => t.id == taskId)).map (fun t => t.projectId)

/-- Python string interpolation of an optional query parameter: `None`
renders as the literal `"None"`, a present date as its raw text (here the
decimal day number). -/
def pyOptStr : Option Int → String
  | none => "None"
  | some d => toString d

/-- `cache_key = f"dashboard_metrics_{start_date}_{end_date}"` (api.py
line 461). -/
def dashboardCacheKey (sd ed : Option Int) : String :=
  "dashboard_metrics_" ++ pyOptStr sd ++ "_" ++ pyOptStr ed

/-- `tasks_qs.values('status').annotate(count=Count('id'))` (api.py lines
501-505): one pair per distinct status value, with its row count. -/
def groupedCounts (statuses : List Status) : List (Status × Nat) :=
  statuses.dedup.map (fun s => (s, statuses.count s))

/-- `for status_choice, _ in Status.choices: task_counts.setdefault(status_choice, 0)`
(api.py lines 508-509). -/
def fillMissing (counts : List (Status × Nat)) : List (Status × Nat) :=
  Status.choices.foldl
    (fun acc s => if acc.any (fun kv => kv.1 == s) then acc else acc ++ [(s, 0)])
    counts

/-- The aggregate computation of `dashboard_overview` (api.py lines
467-569), i.e. everything the view does on a cache miss before storing the
payload. Date parameters arrive already parsed (a malformed date is
rejected before this computation and is outside the claims). -/
def computeDashboard (sd ed : Option Int) (db : DB) : DashboardData :=
  let time_entries_qs := db.timeEntries.filter (inDateRange sd ed)
  let date_filter :=
    (match sd with
     | some d => [("start_date", toString d)]
     | none => []) ++
    (match ed with
     | some d => [("end_date", toString d)]
     | none => [])
  let task_counts := fillMissing (groupedCounts (db.tasks.map (fun t => t.status)))
  let total_estimated := djangoSum (db.tasks.map (fun t => some t.estimated_time))
  let total_spent := djangoSum (db.tasks.map (fun t => some t.spent_time))
  let project_time_data :=
    if sd.isSome || ed.isSome then
      db.projects.map (fun p =>
        let project_entries := time_entries_qs.filter
          (fun e => taskProjectId db e.taskId == some p.id && e.end_time.isSome)
        let total_duration := pyOrZero (djangoSum (project_entries.map (fun e => e.duration)))
        { project_id := toString p.id, project_title := p.title,
          spent_time := format_duration (some total_duration) : ProjectTime })
    else
      db.projects.map (fun p =>
        let ptasks := db.tasks.filter (fun t => t.projectId == p.id)
        let spent_time_sum := djangoSum (ptasks.map (fun t => some t.spent_time))
        { project_id := toString p.id, project_title := p.title,
          spent_time := format_duration spent_time_sum : ProjectTime })
  { task_counts := task_counts,
    total_estimated_time := format_duration total_estimated,
    total_spent_time := format_duration total_spent,
    time_spent_per_project := project_time_data,
    date_range_filter := date_filter }

/-- `dashboard_overview` view (api.py lines 450-582): look up the cache
under the parameter-derived key; on a hit return the stored payload
verbatim, on a miss compute and store. -/
def dashboard_overview (sd ed : Option Int) (db : DB) (c : Cache) :
    DashboardData × Cache :=
  let key := dashboardCacheKey sd ed
  match cacheGet c key with
  | some data => (data, c)
  | none =>
    let data := computeDashboard sd ed db
    (data, cacheSet c key data)

/-- A core timer operation: one call of `start_timer` (with the current
time and the primary key assigned to the new row) or of `stop_timer`. -/
inductive TimerOp where
  | start (taskId : Nat) (now : Int) (newId : Nat)
  | stop (taskId : Nat) (now : Int)

/-- The wall-clock time at which an operation runs. -/
def TimerOp.time : TimerOp → Int
  | TimerOp.start _ now _ => now
  | TimerOp.stop _ now => now

/-- Run one timer operation against the store and the cache, discarding
the HTTP response (an error response leaves both unchanged). -/
def applyOp (op : TimerOp) (s : DB × Cache) : DB × Cache :=
  match op with
  | TimerOp.start tid now nid =>
    let r := start_timer tid now nid s.1 s.2
    (r.1, r.2.1)
  | TimerOp.stop tid now =>
    let r := stop_timer tid now s.1 s.2
    (r.1, r.2.1)

/-- Run a sequence of timer operations. -/
def runOps (ops : List TimerOp) (s : DB × Cache) : DB × Cache :=
  ops.foldl (fun s op => applyOp op s) s

/-- The store assigns unused primary keys: a `start` operation's `newId`
does not collide with an existing time entry row. -/
def freshFor : TimerOp → DB → Prop
  | TimerOp.start _ _ nid, db => nid ∉ db.timeEntries.map (fun e => e.id)
  | TimerOp.stop _ _, _ => True

/-- Every operation of the trace, run at its point in the sequence, uses a
fresh primary key. -/
def goodTrace : List TimerOp → DB × Cache → Prop
  | [], _ => True
  | op :: rest, s => freshFor op s.1 ∧ goodTrace rest (applyOp op s)

/-- Observation: the `spent_time` column of the task row with the given
primary key (0 if absent). -/
def spentTimeOf (db : DB) (tid : Nat) : Int :=
  ((db.tasks.find? (fun t => t.id == tid)).map (fun t => t.spent_time)).getD 0

/-- Observation: the `status` column of the task row with the given
primary key. -/
def statusOf (db : DB) (tid : Nat) : Option Status :=
  (db.tasks.find? (fun t => t.id == tid)).map (fun t => t.status)

/-- Observation: the sum of the recorded durations of the task's stopped
(non-null `end_time`) time entries. -/
def closedDurationSum (db : DB) (tid : Nat) : Int :=
  ((db.timeEntries.filter (fun e => e.taskId == tid && e.end_time.isSome)).filterMap
    (fun e => e.duration)).sum

/-- Row-identity well-formedness the store's primary keys guarantee: no
two time entry rows share an id. -/
def entryIdsNodup (db : DB) : Prop :=
  (db.timeEntries.map (fun e => e.id)).Nodup

/-! Concrete example stores used by counterexamples and witnesses. -/

/-- One project with one `todo` task and no time entries. -/
def dbNoTimer : DB :=
  { projects := [{ id := 1, title := "P" }],
    tasks := [{ id := 1, projectId := 1, status := Status.todo,
                estimated_time := 7200, spent_time := 0 }],
    timeEntries := [] }

/-- One project with one `todo` task carrying an open time entry
(started at time 10). -/
def dbOpenTimer : DB :=
  { projects := [{ id := 1, title := "P" }],
    tasks := [{ id := 1, projectId := 1, status := Status.todo,
                estimated_time := 7200, spent_time := 0 }],
    timeEntries := [{ id := 1, taskId := 1, start_time := 10,
                      end_time := none, duration := none }] }

/-- The store `stop_timer 1 50` produces from `dbOpenTimer`. -/
def dbStopped : DB :=
  { projects := [{ id := 1, title := "P" }],
    tasks := [{ id := 1, projectId := 1, status := Status.todo,
                estimated_time := 7200, spent_time := 40 }],
    timeEntries := [{ id := 1, taskId := 1, start_time := 10,
                      end_time := some 50, duration := some 40 }] }

/-- The entry `stop_timer 1 50` returns from `dbOpenTimer`. -/
def entryStopped : TimeEntry :=
  { id := 1, taskId := 1, start_time := 10, end_time := some 50, duration := some 40 }

/-- C1: the timer views evict the literal key `"dashboard_metrics"`, but an
unfiltered `dashboard_overview` call caches under
`"dashboard_metrics_None_None"`, so after `start_timer` the next
unfiltered dashboard call still hits the stale pre-mutation payload while
a fresh computation would differ (the task moved from `todo` to
`in_progress`). This evaluates the cycle cache → mutate → read on a
concrete store and exhibits the stale serve the claim rules out. -/
theorem dashboard_cache_not_evicted_by_start_timer :
    (let step1 := dashboard_overview none none dbNoTimer ([] : Cache)
     let step2 := start_timer 1 0 1 dbNoTimer step1.2
     let step3 := dashboard_overview none none step2.1 step2.2.1
     cacheGet step2.2.1 (dashboardCacheKey none none) = some step1.1 ∧
     step3.1 = step1.1 ∧
     computeDashboard none none step2.1 ≠ step1.1) := by
  decide

/-- C2: `start_timer` on a task that already has an active timer returns
the conflicting-timer error (surfaced as HTTP 400, `'Task already has an
active timer'`) and leaves the store and the cache exactly as they were:
no entry is created, no status or `spent_time` is touched. -/
theorem start_timer_conflict_unchanged (db : DB) (c : Cache) (tid : Nat)
    (now : Int) (nid : Nat)
    (htask : (db.tasks.find? (fun t => t.id == tid)).isSome)
    (hactive : has_active_timer db tid = true) :
    start_timer tid now nid db c = (db, c, Except.error TimerError.alreadyActive) := by
  unfold start_timer
  match hf : db.tasks.find? (fun t => t.id == tid) with
  | none => rw [hf] at htask; simp at htask
  | some task => rw [hf, hactive]; simp

/-- C2 witness: on `dbOpenTimer`, task 1 has an active timer, and
`start_timer` returns the conflict error leaving everything unchanged. -/
theorem start_timer_conflict_unchanged_witness :
    ((dbOpenTimer.tasks.find? (fun t => t.id == 1)).isSome ∧
     has_active_timer dbOpenTimer 1 = true) ∧
    start_timer 1 50 2 dbOpenTimer [] =
      (dbOpenTimer, [], Except.error TimerError.alreadyActive) :=
  ⟨⟨by decide, by decide⟩,
   start_timer_conflict_unchanged dbOpenTimer [] 1 50 2 (by decide) (by decide)⟩

/-- C3: `stop_timer` on a task with no active timer returns the
no-active-timer error (surfaced as HTTP 400, `'No active timer found for
this task'`) and leaves the store and the cache exactly as they were. -/
theorem stop_timer_no_active_unchanged (db : DB) (c : Cache) (tid : Nat)
    (now : Int)
    (htask : (db.tasks.find? (fun t => t.id == tid)).isSome)
    (hactive : active_timer db tid = none) :
    stop_timer tid now db c = (db, c, Except.error TimerError.noActiveTimer) := by
  unfold stop_timer
  match hf : db.tasks.find? (fun t => t.id == tid) with
  | none => rw [hf] at htask; simp at htask
  | some task => rw [hf, hactive]

/-- C3 witness: on `dbNoTimer`, task 1 has no active timer, and
`stop_timer` returns the bad-request error leaving everything
unchanged. -/
theorem stop_timer_no_active_unchanged_witness :
    ((dbNoTimer.tasks.find? (fun t => t.id == 1)).isSome ∧
     active_timer dbNoTimer 1 = none) ∧
    stop_timer 1 50 dbNoTimer [] =
      (dbNoTimer, [], Except.error TimerError.noActiveTimer) :=
  ⟨⟨by decide, by decide⟩,
   stop_timer_no_active_unchanged dbNoTimer [] 1 50 (by decide) (by decide)⟩

/-- C4: a successful `stop_timer` returns an entry whose `end_time` is the
sampled stop time and whose `duration` is exactly `end_time - start_time`;
whenever the stop time is at or after the entry's `start_time`, that
duration is non-negative. -/
theorem stop_timer_duration_exact (db : DB) (c : Cache) (tid : Nat)
    (now : Int) (db2 : DB) (c2 : Cache) (e : TimeEntry)
    (h : stop_timer tid now db c = (db2, c2, Except.ok e)) :
    e.end_time = some now ∧ e.duration = some (now - e.start_time) ∧
    (e.start_time ≤ now → ∃ d, e.duration = some d ∧ 0 ≤ d) := by
  unfold stop_timer at h
  match hf : db.tasks.find? (fun t => t.id == tid) with
  | none => rw [hf] at h; simp at h
  | some task =>
    rw [hf] at h
    match ha : active_timer db tid with
    | none => rw [ha] at h; simp at h
    | some entry =>
      rw [ha] at h
      simp [TimeEntry.save] at h
      obtain ⟨hdb, hc, he⟩ := h
      subst he
      refine ⟨rfl, rfl, fun hle => ⟨now - entry.start_time, rfl, ?_⟩⟩
      have h2 : entry.start_time ≤ now := hle
      omega

/-- C4 witness: stopping the timer of `dbOpenTimer` (started at 10) at
time 50 yields the entry with `end_time = 50` and `duration = 40 ≥ 0`. -/
theorem stop_timer_duration_exact_witness :
    stop_timer 1 50 dbOpenTimer [] = (dbStopped, [], Except.ok entryStopped) ∧
    (entryStopped.end_time = some 50 ∧
     entryStopped.duration = some (50 - entryStopped.start_time) ∧
     (entryStopped.start_time ≤ 50 →
       ∃ d, entryStopped.duration = some d ∧ 0 ≤ d)) :=
  ⟨by decide,
   stop_timer_duration_exact dbOpenTimer [] 1 50 dbStopped [] entryStopped (by decide)⟩

/-- `List.find?` by primary key commutes with mapping an id-preserving
row update over the table. -/
theorem find?_id_map (l : List Task) (tid : Nat) (f : Task → Task)
    (hid : ∀ t, (f t).id = t.id) :
    (l.map f).find? (fun t => t.id == tid) = (l.find? (fun t => t.id == tid)).map f := by
  induction l with
  | nil => rfl
  | cons a l ih =>
    simp only [List.map_cons, List.find?_cons]
    rw [hid a]
    cases h : (a.id == tid) with
    | true => simp
    | false => simpa using ih

/-- Writing a status through `setTaskStatus` makes that status the one
subsequently read for the task (when the task row exists). -/
theorem statusOf_setTaskStatus (db : DB) (tid : Nat) (s : Status) :
    statusOf (setTaskStatus db tid s) tid = (statusOf db tid).map (fun _ => s) := by
  unfold statusOf setTaskStatus
  simp only
  rw [find?_id_map db.tasks tid _ (by intro t; by_cases hti : t.id == tid <;> simp [hti])]
  match hf : db.tasks.find? (fun t => t.id == tid) with
  | none => rw [hf]; rfl
  | some t =>
    rw [hf]
    have hp := List.find?_some hf
    simp at hp
    simp [hp]

/-- A task's status does not depend on the time entry table. -/
theorem statusOf_timeEntries_irrel (db : DB) (l : List TimeEntry) (tid : Nat) :
    statusOf { db with timeEntries := l } tid = statusOf db tid := rfl

/-- C6: a successful `start_timer` leaves the task's status at
`in_progress` exactly when it was `todo`, and untouched otherwise (an
`in_progress` or `done` task is never regressed or changed). -/
theorem start_timer_status_transition (db : DB) (c : Cache) (tid : Nat)
    (now : Int) (nid : Nat) (st : Status) (db2 : DB) (c2 : Cache) (e : TimeEntry)
    (hst : statusOf db tid = some st)
    (h : start_timer tid now nid db c = (db2, c2, Except.ok e)) :
    statusOf db2 tid = some (if st = Status.todo then Status.in_progress else st) := by
  unfold start_timer at h
  match hf : db.tasks.find? (fun t => t.id == tid) with
  | none => rw [hf] at h; simp at h
  | some task =>
    rw [hf] at h
    have hsttask : task.status = st := by
      unfold statusOf at hst
      rw [hf] at hst
      simpa using hst
    by_cases hact : has_active_timer db tid
    · simp [hact] at h
    · simp [hact] at h
      obtain ⟨hdb, hc, he⟩ := h
      by_cases hts : task.status = Status.todo
      · have hstodo : st = Status.todo := by rw [← hsttask, hts]
        rw [← hdb, if_pos hts, hstodo, if_pos rfl]
        rw [statusOf_setTaskStatus, statusOf_timeEntries_irrel, hst]
        rfl
      · have hstnot : ¬(st = Status.todo) := by rw [← hsttask]; exact hts
        rw [← hdb, if_neg hts, if_neg hstnot]
        rw [statusOf_timeEntries_irrel, hst]

/-- The open entry `start_timer 1 0 1` creates from `dbNoTimer`. -/
def entryOpen : TimeEntry :=
  { id := 1, taskId := 1, start_time := 0, end_time := none, duration := none }

/-- The store `start_timer 1 0 1` produces from `dbNoTimer`. -/
def dbStarted : DB :=
  { projects := [{ id := 1, title := "P" }],
    tasks := [{ id := 1, projectId := 1, status := Status.in_progress,
                estimated_time := 7200, spent_time := 0 }],
    timeEntries := [entryOpen] }

/-- C6 witness: starting the timer of the `todo` task of `dbNoTimer`
moves its status to `in_progress`. -/
theorem start_timer_status_transition_witness :
    (statusOf dbNoTimer 1 = some Status.todo ∧
     start_timer 1 0 1 dbNoTimer [] = (dbStarted, [], Except.ok entryOpen)) ∧
    statusOf dbStarted 1 =
      some (if Status.todo = Status.todo then Status.in_progress else Status.todo) :=
  ⟨⟨by decide, by decide⟩,
   start_timer_status_transition dbNoTimer [] 1 0 1 Status.todo dbStarted []
     entryOpen (by decide) (by decide)⟩

/-- The claim's output format: a decimal numeral zero-padded on the left
to at least two characters. -/
def zeroPad2 (s : String) : String :=
  if s.length < 2 then "0" ++ s else s

/-- C7: `format_duration` is pure and returns `"00:00"` for an absent
duration and for zero; `format_duration (90 minutes) = "01:30"`; and for
every non-negative duration written as `h` hours, `m` minutes and `s`
leftover seconds (`m, s < 60`), it returns the zero-padded hours (at least
two digits, no day rollover), a colon, and the zero-padded minutes, with
the seconds floored away. -/
theorem format_duration_hhmm :
    format_duration none = "00:00" ∧
    format_duration (some 0) = "00:00" ∧
    format_duration (some 5400) = "01:30" ∧
    ∀ (h m s : Nat), m < 60 → s < 60 →
      format_duration (some ((h : Int) * 3600 + (m : Int) * 60 + (s : Int))) =
        zeroPad2 (toString h) ++ ":" ++ zeroPad2 (toString m) := by
  refine ⟨rfl, rfl, by decide, ?_⟩
  intro h m s hm hs
  have hd : ((h : Int) * 3600 + (m : Int) * 60 + (s : Int))
      = ((h * 3600 + m * 60 + s : Nat) : Int) := by push_cast; ring
  rw [hd]
  simp only [format_duration]
  by_cases hz : (h * 3600 + m * 60 + s : Nat) = 0
  · have hh : h = 0 := by omega
    have hmm : m = 0 := by omega
    rw [if_pos (by exact_mod_cast hz), hh, hmm]
    decide
  · rw [if_neg (by exact_mod_cast hz)]
    rw [show (3600 : Int) = ((3600 : Nat) : Int) from rfl, ← Int.ofNat_fdiv,
      ← Int.ofNat_fmod]
    rw [show (60 : Int) = ((60 : Nat) : Int) from rfl, ← Int.ofNat_fdiv]
    rw [show (h * 3600 + m * 60 + s) / 3600 = h by omega]
    rw [show ((h * 3600 + m * 60 + s) % 3600) / 60 = m by omega]
    rfl

/-- C7 witness: 1 hour 30 minutes formats as `"01:30"`. -/
theorem format_duration_hhmm_witness :
    ((30 : Nat) < 60 ∧ (0 : Nat) < 60) ∧
    format_duration
        (some (((1 : Nat) : Int) * 3600 + ((30 : Nat) : Int) * 60 + ((0 : Nat) : Int))) =
      zeroPad2 (toString (1 : Nat)) ++ ":" ++ zeroPad2 (toString (30 : Nat)) :=
  ⟨⟨by decide, by decide⟩,
   format_duration_hhmm.2.2.2 1 30 0 (by decide) (by decide)⟩

/-- C10: `TimeEntry.save` with a set `end_time` overwrites whatever
`duration` the caller assigned with `end_time - start_time`, leaving
`start_time` and `end_time` as given — hence every persisted entry with a
non-null `end_time` satisfies `duration = end_time - start_time`. -/
theorem save_overwrites_duration (e : TimeEntry) (t : Int)
    (h : e.end_time = some t) :
    (TimeEntry.save e).duration = some (t - e.start_time) ∧
    (TimeEntry.save e).end_time = some t ∧
    (TimeEntry.save e).start_time = e.start_time := by
  simp [TimeEntry.save, h]

/-- C10 witness: saving an entry with `start_time = 7`, `end_time = 100`
and a caller-assigned bogus `duration = 123456` stores
`duration = 93`. -/
theorem save_overwrites_duration_witness :
    (TimeEntry.save
        { id := 9, taskId := 1, start_time := 7,
          end_time := some 100, duration := some 123456 }).duration =
      some (100 - 7) ∧ (100 : Int) - 7 = 93 :=
  ⟨(save_overwrites_duration
      { id := 9, taskId := 1, start_time := 7,
        end_time := some 100, duration := some 123456 } 100 rfl).1,
   by decide⟩

/-- `x or timedelta()` applied to a Django `Sum` result is the plain sum
of the non-NULL summands (the empty sum being zero). -/
theorem pyOrZero_djangoSum (xs : List (Option Int)) :
    pyOrZero (djangoSum xs) = (xs.filterMap id).sum := by
  unfold pyOrZero djangoSum
  by_cases he : (xs.filterMap id).isEmpty
  · simp only [he, if_pos]
    rw [List.isEmpty_iff] at he
    simp [he]
  · simp [he]

/-- C8: with at least one date bound supplied, `task_counts`,
`total_estimated_time` and `total_spent_time` are the same unfiltered
global task aggregates the no-filter dashboard computes, while
`time_spent_per_project` switches source: per project, the summed
durations of its time entries whose `start_time` date lies within the
inclusive bounds and whose `end_time` is non-null (open entries are
excluded). -/
theorem dashboard_date_filter_asymmetry (sd ed : Option Int) (db : DB)
    (hfil : (sd.isSome || ed.isSome) = true) :
    (computeDashboard sd ed db).task_counts =
      (computeDashboard none none db).task_counts ∧
    (computeDashboard sd ed db).total_estimated_time =
      (computeDashboard none none db).total_estimated_time ∧
    (computeDashboard sd ed db).total_spent_time =
      (computeDashboard none none db).total_spent_time ∧
    (computeDashboard sd ed db).time_spent_per_project =
      db.projects.map (fun p =>
        { project_id := toString p.id, project_title := p.title,
          spent_time := format_duration (some
            (((db.timeEntries.filter (fun e =>
                  (taskProjectId db e.taskId == some p.id && e.end_time.isSome) &&
                  inDateRange sd ed e)).filterMap (fun e => e.duration)).sum)) }) := by
  refine ⟨rfl, rfl, rfl, ?_⟩
  simp only [computeDashboard, hfil, if_true]
  apply List.map_congr_left
  intro p _
  rw [List.filter_filter, pyOrZero_djangoSum, List.filterMap_map]
  simp [Function.comp]

/-- C8 witness: on `dbStopped` with `start_date = day 0` supplied, the
global aggregates match the unfiltered ones and the per-project totals
come from the in-range closed entries. -/
theorem dashboard_date_filter_asymmetry_witness :
    ((some 0 : Option Int).isSome || (none : Option Int).isSome) = true ∧
    ((computeDashboard (some 0) none dbStopped).task_counts =
        (computeDashboard none none dbStopped).task_counts ∧
     (computeDashboard (some 0) none dbStopped).total_estimated_time =
        (computeDashboard none none dbStopped).total_estimated_time ∧
     (computeDashboard (some 0) none dbStopped).total_spent_time =
        (computeDashboard none none dbStopped).total_spent_time ∧
     (computeDashboard (some 0) none dbStopped).time_spent_per_project =
        dbStopped.projects.map (fun p =>
          { project_id := toString p.id, project_title := p.title,
            spent_time := format_duration (some
              (((dbStopped.timeEntries.filter (fun e =>
                    (taskProjectId dbStopped e.taskId == some p.id && e.end_time.isSome) &&
                    inDateRange (some 0) none e)).filterMap (fun e => e.duration)).sum)) })) :=
  ⟨rfl, dashboard_date_filter_asymmetry (some 0) none dbStopped rfl⟩

/-- Elements already accumulated survive the `setdefault` fold. -/
theorem mem_foldl_fill (l : List Status) (acc : List (Status × Nat)) (x : Status × Nat)
    (hx : x ∈ acc) :
    x ∈ l.foldl (fun acc s => if acc.any (fun kv => kv.1 == s) then acc
      else acc ++ [(s, 0)]) acc := by
  induction l generalizing acc with
  | nil => simpa using hx
  | cons a l ih =>
    simp only [List.foldl_cons]
    by_cases h : acc.any (fun kv => kv.1 == a)
    · rw [if_pos h]; exact ih _ hx
    · rw [if_neg h]; exact ih _ (List.mem_append_left _ hx)

/-- The `setdefault` fold inserts `(s, 0)` for a status `s` of the choice
list that has no key in the accumulator. -/
theorem zero_mem_foldl_fill (l : List Status) (acc : List (Status × Nat)) (s : Status)
    (hs : s ∈ l) (hk : acc.any (fun kv => kv.1 == s) = false) :
    (s, 0) ∈ l.foldl (fun acc s => if acc.any (fun kv => kv.1 == s) then acc
      else acc ++ [(s, 0)]) acc := by
  induction l generalizing acc with
  | nil => simp at hs
  | cons a l ih =>
    simp only [List.foldl_cons]
    by_cases ha : a = s
    · subst ha
      rw [if_neg (by simp [hk])]
      exact mem_foldl_fill l _ _ (List.mem_append_right _ (by simp))
    · have hs' : s ∈ l := by
        rcases List.mem_cons.mp hs with h | h
        · exact absurd h.symm ha
        · exact h
      by_cases hacc : acc.any (fun kv => kv.1 == a)
      · rw [if_pos hacc]; exact ih _ hs' hk
      · rw [if_neg hacc]
        apply ih _ hs'
        simp only [List.any_append, hk]
        simp [ha]

/-- The `setdefault` fold only adds zero counts: the count values keep
their sum. -/
theorem sum_foldl_fill (l : List Status) (acc : List (Status × Nat)) :
    (((l.foldl (fun acc s => if acc.any (fun kv => kv.1 == s) then acc
        else acc ++ [(s, 0)]) acc)).map (fun kv => kv.2)).sum
      = (acc.map (fun kv => kv.2)).sum := by
  induction l generalizing acc with
  | nil => rfl
  | cons a l ih =>
    simp only [List.foldl_cons]
    by_cases h : acc.any (fun kv => kv.1 == a)
    · rw [if_pos h]; exact ih _
    · rw [if_neg h, ih]
      simp

/-- C9: the `task_counts` dict the dashboard returns (computed on a cache
miss) has an entry for every one of the three known statuses — the pair
`(s, number of tasks with status s)`, which is `(s, 0)` when no task has
that status — and its values sum to the total number of tasks. -/
theorem dashboard_task_counts_complete (sd ed : Option Int) (db : DB) (c : Cache)
    (hmiss : cacheGet c (dashboardCacheKey sd ed) = none) :
    (∀ s : Status, (s, (db.tasks.map (fun t => t.status)).count s)
        ∈ ((dashboard_overview sd ed db c).1).task_counts) ∧
    ((((dashboard_overview sd ed db c).1).task_counts.map (fun kv => kv.2)).sum
        = db.tasks.length) := by
  have hres : (dashboard_overview sd ed db c).1 = computeDashboard sd ed db := by
    simp only [dashboard_overview, hmiss]
  rw [hres]
  have htc : (computeDashboard sd ed db).task_counts
      = fillMissing (groupedCounts (db.tasks.map (fun t => t.status))) := rfl
  rw [htc]
  constructor
  · intro s
    by_cases hk : (groupedCounts (db.tasks.map (fun t => t.status))).any
        (fun kv => kv.1 == s)
    · obtain ⟨kv, hkv, hkv1⟩ := List.any_eq_true.mp hk
      obtain ⟨s2, hs2, hkv2⟩ := List.mem_map.mp hkv
      have hseq : s2 = s := by
        rw [← hkv2] at hkv1
        simpa using hkv1
      subst hseq
      unfold fillMissing
      apply mem_foldl_fill
      rw [← hkv2] at hkv
      exact hkv
    · have hnotmem : s ∉ db.tasks.map (fun t => t.status) := by
        intro hmem
        apply absurd hk
        simp only [ne_eq, not_not, List.any_eq_true]
        refine ⟨(s, (db.tasks.map (fun t => t.status)).count s), ?_, by simp⟩
        unfold groupedCounts
        exact List.mem_map.mpr ⟨s, List.mem_dedup.mpr hmem, rfl⟩
      have hcnt : (db.tasks.map (fun t => t.status)).count s = 0 :=
        List.count_eq_zero.mpr hnotmem
      rw [hcnt]
      unfold fillMissing
      apply zero_mem_foldl_fill
      · cases s <;> simp [Status.choices]
      · rw [Bool.not_eq_true] at hk
        exact hk
  · unfold fillMissing
    rw [sum_foldl_fill]
    unfold groupedCounts
    rw [List.map_map]
    have : ((fun kv => kv.2) ∘ fun s => (s, (db.tasks.map (fun t => t.status)).count s))
        = fun s => (db.tasks.map (fun t => t.status)).count s := rfl
    rw [this, List.sum_map_count_dedup_eq_length, List.length_map]

/-- C9 witness: on `dbNoTimer` (a single `todo` task) with an empty cache,
all three status keys are present and the counts sum to 1. -/
theorem dashboard_task_counts_complete_witness :
    cacheGet ([] : Cache) (dashboardCacheKey none none) = none ∧
    ((Status.todo, (dbNoTimer.tasks.map (fun t => t.status)).count Status.todo)
        ∈ ((dashboard_overview none none dbNoTimer []).1).task_counts ∧
     (Status.in_progress,
        (dbNoTimer.tasks.map (fun t => t.status)).count Status.in_progress)
        ∈ ((dashboard_overview none none dbNoTimer []).1).task_counts ∧
     (Status.done, (dbNoTimer.tasks.map (fun t => t.status)).count Status.done)
        ∈ ((dashboard_overview none none dbNoTimer []).1).task_counts) ∧
    ((((dashboard_overview none none dbNoTimer []).1).task_counts.map
        (fun kv => kv.2)).sum = dbNoTimer.tasks.length) :=
  ⟨rfl,
   ⟨(dashboard_task_counts_complete none none dbNoTimer [] rfl).1 Status.todo,
    (dashboard_task_counts_complete none none dbNoTimer [] rfl).1 Status.in_progress,
    (dashboard_task_counts_complete none none dbNoTimer [] rfl).1 Status.done⟩,
   (dashboard_task_counts_complete none none dbNoTimer [] rfl).2⟩

/-- The contribution of one time entry row to a task's closed-duration
total: its recorded duration when it belongs to the task and is stopped,
else zero (a NULL duration contributes zero, as in SQL SUM). -/
def closedContrib (tid : Nat) (e : TimeEntry) : Int :=
  if e.taskId == tid && e.end_time.isSome then e.duration.getD 0 else 0

/-- The filter-then-sum form of the closed-duration total equals the sum
of per-row contributions. -/
theorem closedSum_list (l : List TimeEntry) (tid : Nat) :
    ((l.filter (fun e => e.taskId == tid && e.end_time.isSome)).filterMap
        (fun e => e.duration)).sum
      = (l.map (closedContrib tid)).sum := by
  induction l with
  | nil => rfl
  | cons a l ih =>
    simp only [List.filter_cons]
    by_cases hp : (a.taskId == tid && a.end_time.isSome) = true
    · rw [if_pos hp]
      cases hd : a.duration with
      | none => simp [List.filterMap_cons, hd, closedContrib, hp, ih]
      | some d => simp [List.filterMap_cons, hd, closedContrib, hp, ih]
    · rw [if_neg hp]
      simp only [List.map_cons, List.sum_cons, ih]
      have : closedContrib tid a = 0 := by
        unfold closedContrib
        rw [if_neg hp]
      rw [this]
      ring

/-- `closedDurationSum` as a sum of per-row contributions. -/
theorem closedDurationSum_eq (db : DB) (tid : Nat) :
    closedDurationSum db tid = (db.timeEntries.map (closedContrib tid)).sum :=
  closedSum_list db.timeEntries tid

/-- Replacing, by primary key, one row of a duplicate-free entry table
shifts the contribution sum by the new row's contribution minus the old
row's. -/
theorem sum_map_replace (l : List TimeEntry) (tid : Nat) (entry stopped : TimeEntry)
    (hnd : (l.map (fun e => e.id)).Nodup) (hmem : entry ∈ l) :
    ((l.map (fun e => if e.id == entry.id then stopped else e)).map
        (closedContrib tid)).sum
      = (l.map (closedContrib tid)).sum
        + closedContrib tid stopped - closedContrib tid entry := by
  induction l with
  | nil => simp at hmem
  | cons a l ih =>
    rw [List.map_cons, List.nodup_cons] at hnd
    obtain ⟨hnd1, hnd2⟩ := hnd
    simp only [List.map_cons, List.sum_cons]
    by_cases hae : (a.id == entry.id) = true
    · have haeq : entry = a := by
        rcases List.mem_cons.mp hmem with h | h
        · exact h
        · exfalso
          apply hnd1
          have h2 : a.id = entry.id := by simpa using hae
          rw [h2]
          exact List.mem_map.mpr ⟨entry, h, rfl⟩
      have hrest : l.map (fun e => if e.id == entry.id then stopped else e) = l := by
        have hall : ∀ e ∈ l, (if e.id == entry.id then stopped else e) = id e := by
          intro e he
          have hne : ¬(e.id == entry.id) = true := by
            intro hcontra
            apply hnd1
            have h1 : e.id = entry.id := by simpa using hcontra
            have h2 : a.id = entry.id := by simpa using hae
            rw [h2, ← h1]
            exact List.mem_map.mpr ⟨e, he, rfl⟩
          rw [if_neg hne]
          rfl
        rw [List.map_congr_left hall, List.map_id]
      rw [if_pos hae, hrest, haeq]
      ring
    · have hmem' : entry ∈ l := by
        rcases List.mem_cons.mp hmem with h | h
        · exfalso; apply hae; rw [h]; simp
        · exact h
      rw [if_neg hae, ih hnd2 hmem']
      ring

/-- A task's `spent_time` does not depend on the time entry table. -/
theorem spentTimeOf_timeEntries_irrel (db : DB) (l : List TimeEntry) (tid : Nat) :
    spentTimeOf { db with timeEntries := l } tid = spentTimeOf db tid := rfl

/-- Writing a status leaves every task's `spent_time` unchanged. -/
theorem spentTimeOf_setTaskStatus (db : DB) (tid2 : Nat) (st : Status) (tid : Nat) :
    spentTimeOf (setTaskStatus db tid2 st) tid = spentTimeOf db tid := by
  unfold spentTimeOf setTaskStatus
  simp only
  rw [find?_id_map db.tasks tid _ (by intro t; by_cases h : (t.id == tid2) = true <;> simp [h])]
  cases hf : db.tasks.find? (fun t => t.id == tid) with
  | none => simp
  | some t =>
    by_cases h2 : t.id = tid2 <;> simp [h2]

/-- Writing a status leaves the closed-duration totals unchanged. -/
theorem closedDurationSum_setTaskStatus (db : DB) (tid2 : Nat) (st : Status) (tid : Nat) :
    closedDurationSum (setTaskStatus db tid2 st) tid = closedDurationSum db tid := rfl

/-- Appending one entry row adds exactly its contribution to the
closed-duration total. -/
theorem closedDurationSum_append_one (db : DB) (e : TimeEntry) (tid : Nat) :
    closedDurationSum { db with timeEntries := db.timeEntries ++ [e] } tid
      = closedDurationSum db tid + closedContrib tid e := by
  rw [closedDurationSum_eq, closedDurationSum_eq]
  simp

/-- The explicit result of a successful `stop_timer`: the found open
entry is closed with `end_time = now` and `duration = now - start_time`,
the task's `spent_time` grows by that duration, and the two cache keys
are evicted. -/
theorem stop_timer_success_eq (tid2 : Nat) (now : Int) (db : DB) (c : Cache)
    (task : Task) (entry : TimeEntry)
    (hf : db.tasks.find? (fun t => t.id == tid2) = some task)
    (ha : active_timer db tid2 = some entry) :
    stop_timer tid2 now db c =
      ({ projects := db.projects,
         tasks := db.tasks.map (fun t => if t.id == tid2 then
           { t with spent_time := t.spent_time + (now - entry.start_time) } else t),
         timeEntries := db.timeEntries.map (fun e => if e.id == entry.id then
           { entry with
               end_time := some now,
               duration := some (now - entry.start_time) } else e) },
       timerCacheEvict task.projectId c,
       Except.ok { entry with
                     end_time := some now,
                     duration := some (now - entry.start_time) }) := by
  unfold stop_timer
  rw [hf, ha]
  rfl

/-- Effect of the `spent_time` update on the value subsequently read for
an arbitrary task: unchanged for other tasks, increased by `d` for the
stopped task. -/
theorem spent_find_addSpent (ts : List Task) (tid2 tid : Nat) (d : Int) :
    (((ts.map (fun t => if t.id == tid2 then
          { t with spent_time := t.spent_time + d } else t)).find?
        (fun t => t.id == tid)).map (fun t => t.spent_time)).getD 0
      = ((ts.find? (fun t => t.id == tid)).map (fun t => t.spent_time)).getD 0
        + (if tid = tid2 ∧ (ts.find? (fun t => t.id == tid)).isSome then d else 0) := by
  rw [find?_id_map ts tid _ (by intro t; by_cases h : (t.id == tid2) = true <;> simp [h])]
  cases hf : ts.find? (fun t => t.id == tid) with
  | none => simp
  | some t =>
    have ht : t.id = tid := by simpa using List.find?_some hf
    by_cases htid : tid = tid2
    · have hbe : t.id = tid2 := by rw [ht, htid]
      simp [hbe, htid]
    · have hbe : ¬(t.id = tid2) := by rw [ht]; exact htid
      simp [hbe, htid]

/-- One timer operation changes a task's `spent_time` by exactly as much
as it changes the task's closed-duration total (both zero for `start`
and for every failed call). -/
theorem applyOp_delta (op : TimerOp) (db : DB) (c : Cache) (tid : Nat)
    (hnd : entryIdsNodup db) :
    spentTimeOf (applyOp op (db, c)).1 tid - spentTimeOf db tid
      = closedDurationSum (applyOp op (db, c)).1 tid - closedDurationSum db tid := by
  cases op with
  | start tid2 now nid =>
    show spentTimeOf (start_timer tid2 now nid db c).1 tid - _
        = closedDurationSum (start_timer tid2 now nid db c).1 tid - _
    unfold start_timer
    cases hf : db.tasks.find? (fun t => t.id == tid2) with
    | none => simp
    | some task =>
      by_cases hact : has_active_timer db tid2
      · simp [hact]
      · simp only [hact, if_false, Bool.false_eq_true]
        by_cases hts : task.status = Status.todo
        · simp only [hts, if_true, if_pos rfl]
          rw [spentTimeOf_setTaskStatus, spentTimeOf_timeEntries_irrel,
            closedDurationSum_setTaskStatus, closedDurationSum_append_one]
          have hz : closedContrib tid (TimeEntry.save
              { id := nid, taskId := tid2, start_time := now,
                end_time := none, duration := none }) = 0 := by
            simp [closedContrib, TimeEntry.save]
          rw [hz]
          ring
        · simp only [if_neg hts]
          rw [spentTimeOf_timeEntries_irrel, closedDurationSum_append_one]
          have hz : closedContrib tid (TimeEntry.save
              { id := nid, taskId := tid2, start_time := now,
                end_time := none, duration := none }) = 0 := by
            simp [closedContrib, TimeEntry.save]
          rw [hz]
          ring
  | stop tid2 now =>
    show spentTimeOf (stop_timer tid2 now db c).1 tid - _
        = closedDurationSum (stop_timer tid2 now db c).1 tid - _
    cases hf : db.tasks.find? (fun t => t.id == tid2) with
    | none =>
      have hstop : stop_timer tid2 now db c = (db, c, Except.error TimerError.taskNotFound) := by
        unfold stop_timer
        rw [hf]
      rw [hstop]
      simp
    | some task =>
      cases ha : active_timer db tid2 with
      | none =>
        have hstop : stop_timer tid2 now db c = (db, c, Except.error TimerError.noActiveTimer) := by
          unfold stop_timer
          rw [hf, ha]
        rw [hstop]
        simp
      | some entry =>
        have hmem : entry ∈ db.timeEntries := List.mem_of_find?_eq_some ha
        have hpq : entry.taskId = tid2 ∧ entry.end_time = none := by
          simpa using List.find?_some ha
        have hstop := stop_timer_success_eq tid2 now db c task entry hf ha
        have hs2 : spentTimeOf (stop_timer tid2 now db c).1 tid
            = (((db.tasks.map (fun t => if t.id == tid2 then
                  { t with spent_time := t.spent_time + (now - entry.start_time) } else t)).find?
                (fun t => t.id == tid)).map (fun t => t.spent_time)).getD 0 := by
          rw [hstop]
          rfl
        have hc2 : closedDurationSum (stop_timer tid2 now db c).1 tid
            = ((db.timeEntries.map (fun e => if e.id == entry.id then
                { entry with
                    end_time := some now,
                    duration := some (now - entry.start_time) } else e)).map
                (closedContrib tid)).sum := by
          rw [hstop, closedDurationSum_eq]
        have hs0 : spentTimeOf db tid
            = ((db.tasks.find? (fun t => t.id == tid)).map (fun t => t.spent_time)).getD 0 := rfl
        rw [hs2, hc2, hs0, closedDurationSum_eq db tid, spent_find_addSpent,
          sum_map_replace db.timeEntries tid entry _ hnd hmem]
        have hce : closedContrib tid entry = 0 := by
          simp [closedContrib, hpq.2]
        have hcs : closedContrib tid { entry with
              end_time := some now,
              duration := some (now - entry.start_time) }
            = (if tid = tid2 then (now - entry.start_time) else 0) := by
          by_cases htid : tid = tid2
          · simp [closedContrib, hpq.1, htid]
          · have hne : ¬(entry.taskId = tid) := by
              rw [hpq.1]
              exact fun hcon => htid hcon.symm
            simp [closedContrib, hne, htid]
        rw [hce, hcs]
        by_cases htid : tid = tid2
        · have hsome : (db.tasks.find? (fun t => t.id == tid)).isSome := by
            rw [htid, hf]
            rfl
          rw [if_pos ⟨htid, hsome⟩, if_pos htid]
          ring
        · rw [if_neg (fun hcon => htid hcon.1), if_neg htid]
          ring

/-- Timer operations preserve distinctness of entry primary keys when
the created row's key is fresh. -/
theorem applyOp_nodup (op : TimerOp) (db : DB) (c : Cache)
    (hnd : entryIdsNodup db) (hfr : freshFor op db) :
    entryIdsNodup (applyOp op (db, c)).1 := by
  cases op with
  | start tid2 now nid =>
    show entryIdsNodup (start_timer tid2 now nid db c).1
    have hfr2 : nid ∉ db.timeEntries.map (fun e => e.id) := hfr
    unfold start_timer
    cases hf : db.tasks.find? (fun t => t.id == tid2) with
    | none => exact hnd
    | some task =>
      by_cases hact : has_active_timer db tid2
      · simp only [hact, if_true, if_pos rfl]
        exact hnd
      · simp only [hact, Bool.false_eq_true, if_false]
        have hnodup2 : ((db.timeEntries ++ [TimeEntry.save
            { id := nid, taskId := tid2, start_time := now,
              end_time := none, duration := none }]).map (fun e => e.id)).Nodup := by
          rw [List.map_append, List.nodup_append]
          refine ⟨hnd, List.nodup_singleton _, ?_⟩
          intro a haa hab
          have hab2 : a = nid := by simpa using hab
          subst hab2
          exact hfr2 haa
        by_cases hts : task.status = Status.todo
        · simp only [hts, if_true, if_pos rfl]
          exact hnodup2
        · simp only [if_neg hts]
          exact hnodup2
  | stop tid2 now =>
    show entryIdsNodup (stop_timer tid2 now db c).1
    cases hf : db.tasks.find? (fun t => t.id == tid2) with
    | none =>
      have hstop : stop_timer tid2 now db c = (db, c, Except.error TimerError.taskNotFound) := by
        unfold stop_timer
        rw [hf]
      rw [hstop]
      exact hnd
    | some task =>
      cases ha : active_timer db tid2 with
      | none =>
        have hstop : stop_timer tid2 now db c = (db, c, Except.error TimerError.noActiveTimer) := by
          unfold stop_timer
          rw [hf, ha]
        rw [hstop]
        exact hnd
      | some entry =>
        have hstop := stop_timer_success_eq tid2 now db c task entry hf ha
        rw [hstop]
        show ((db.timeEntries.map (fun e => if e.id == entry.id then
            { entry with
                end_time := some now,
                duration := some (now - entry.start_time) } else e)).map
            (fun e => e.id)).Nodup
        have hids : ((db.timeEntries.map (fun e => if e.id == entry.id then
            { entry with
                end_time := some now,
                duration := some (now - entry.start_time) } else e)).map
            (fun e => e.id)) = db.timeEntries.map (fun e => e.id) := by
          rw [List.map_map]
          apply List.map_congr_left
          intro e he
          by_cases h : (e.id == entry.id) = true
          · have heq : e.id = entry.id := by simpa using h
            simp [Function.comp, h, heq]
          · simp [Function.comp, h]
        rw [hids]
        exact hnd

/-- Over any trace of timer operations with fresh keys, a task's
`spent_time` and its closed-duration total change by the same amount. -/
theorem runOps_delta (ops : List TimerOp) (s : DB × Cache) (tid : Nat)
    (hnd : entryIdsNodup s.1) (hg : goodTrace ops s) :
    spentTimeOf (runOps ops s).1 tid - spentTimeOf s.1 tid
      = closedDurationSum (runOps ops s).1 tid - closedDurationSum s.1 tid := by
  induction ops generalizing s with
  | nil => simp [runOps]
  | cons op ops ih =>
    obtain ⟨hfr, hg2⟩ := hg
    have hstep := applyOp_delta op s.1 s.2 tid hnd
    have hnd2 : entryIdsNodup (applyOp op s).1 := by
      have h2 := applyOp_nodup op s.1 s.2 hnd hfr
      rw [Prod.mk.eta] at h2
      exact h2
    have hrec := ih (applyOp op s) hnd2 hg2
    have hrun : runOps (op :: ops) s = runOps ops (applyOp op s) := rfl
    rw [hrun]
    rw [Prod.mk.eta] at hstep
    omega

/-- A single timer operation never decreases any task's `spent_time`,
provided its timestamp is at or after the start of every open entry (the
clock samples `end_time` after entry creation). -/
theorem applyOp_mono (op : TimerOp) (db : DB) (c : Cache) (tid : Nat)
    (ht : ∀ e ∈ db.timeEntries, e.end_time = none → e.start_time ≤ op.time) :
    spentTimeOf db tid ≤ spentTimeOf (applyOp op (db, c)).1 tid := by
  cases op with
  | start tid2 now nid =>
    show _ ≤ spentTimeOf (start_timer tid2 now nid db c).1 tid
    unfold start_timer
    cases hf : db.tasks.find? (fun t => t.id == tid2) with
    | none => exact le_refl _
    | some task =>
      by_cases hact : has_active_timer db tid2
      · simp only [hact, if_true, if_pos rfl]
        exact le_refl _
      · simp only [hact, Bool.false_eq_true, if_false]
        by_cases hts : task.status = Status.todo
        · simp only [hts, if_true, if_pos rfl]
          rw [spentTimeOf_setTaskStatus, spentTimeOf_timeEntries_irrel]
          exact le_refl _
        · simp only [if_neg hts]
          rw [spentTimeOf_timeEntries_irrel]
          exact le_refl _
  | stop tid2 now =>
    show _ ≤ spentTimeOf (stop_timer tid2 now db c).1 tid
    cases hf : db.tasks.find? (fun t => t.id == tid2) with
    | none =>
      have hstop : stop_timer tid2 now db c = (db, c, Except.error TimerError.taskNotFound) := by
        unfold stop_timer
        rw [hf]
      rw [hstop]
    | some task =>
      cases ha : active_timer db tid2 with
      | none =>
        have hstop : stop_timer tid2 now db c = (db, c, Except.error TimerError.noActiveTimer) := by
          unfold stop_timer
          rw [hf, ha]
        rw [hstop]
      | some entry =>
        have hmem : entry ∈ db.timeEntries := List.mem_of_find?_eq_some ha
        have hpq : entry.taskId = tid2 ∧ entry.end_time = none := by
          simpa using List.find?_some ha
        have hle : entry.start_time ≤ now := ht entry hmem hpq.2
        have hstop := stop_timer_success_eq tid2 now db c task entry hf ha
        have hs2 : spentTimeOf (stop_timer tid2 now db c).1 tid
            = (((db.tasks.map (fun t => if t.id == tid2 then
                  { t with spent_time := t.spent_time + (now - entry.start_time) } else t)).find?
                (fun t => t.id == tid)).map (fun t => t.spent_time)).getD 0 := by
          rw [hstop]
          rfl
        have hs0 : spentTimeOf db tid
            = ((db.tasks.find? (fun t => t.id == tid)).map (fun t => t.spent_time)).getD 0 := rfl
        rw [hs2, hs0, spent_find_addSpent]
        by_cases hcond : tid = tid2 ∧ (db.tasks.find? (fun t => t.id == tid)).isSome
        · rw [if_pos hcond]
          omega
        · rw [if_neg hcond]
          omega

/-- C5: starting from `spent_time = 0` and no stopped entries, after any
trace of timer operations (stops in any order, interleaved with starts
and failed calls) the task's `spent_time` equals the sum of the durations
of its stopped entries; and no single core operation ever decreases a
task's `spent_time` (given end times are sampled at or after the open
entries' start times). -/
theorem spent_time_accumulation :
    (∀ (ops : List TimerOp) (db : DB) (c : Cache) (tid : Nat),
        entryIdsNodup db → goodTrace ops (db, c) →
        spentTimeOf db tid = 0 → closedDurationSum db tid = 0 →
        spentTimeOf (runOps ops (db, c)).1 tid
          = closedDurationSum (runOps ops (db, c)).1 tid) ∧
    (∀ (op : TimerOp) (db : DB) (c : Cache) (tid : Nat),
        (∀ e ∈ db.timeEntries, e.end_time = none → e.start_time ≤ op.time) →
        spentTimeOf db tid ≤ spentTimeOf (applyOp op (db, c)).1 tid) := by
  constructor
  · intro ops db c tid hnd hg h0 hc0
    have hdelta := runOps_delta ops (db, c) tid hnd hg
    simp only at hdelta
    rw [h0, hc0] at hdelta
    omega
  · intro op db c tid ht
    exact applyOp_mono op db c tid ht

/-- C5 witness: the trace start, stop at 60, start, stop at 160 on
`dbNoTimer` leaves task 1 with `spent_time = 60 + 60 = 120`, the sum of
its two stopped entries' durations; and a concrete stop never decreases
`spent_time`. -/
theorem spent_time_accumulation_witness :
    (entryIdsNodup dbNoTimer ∧
     goodTrace [TimerOp.start 1 0 1, TimerOp.stop 1 60,
       TimerOp.start 1 100 2, TimerOp.stop 1 160] (dbNoTimer, []) ∧
     spentTimeOf dbNoTimer 1 = 0 ∧ closedDurationSum dbNoTimer 1 = 0) ∧
    spentTimeOf (runOps [TimerOp.start 1 0 1, TimerOp.stop 1 60,
      TimerOp.start 1 100 2, TimerOp.stop 1 160] (dbNoTimer, [])).1 1
      = closedDurationSum (runOps [TimerOp.start 1 0 1, TimerOp.stop 1 60,
        TimerOp.start 1 100 2, TimerOp.stop 1 160] (dbNoTimer, [])).1 1 ∧
    ((∀ e ∈ dbOpenTimer.timeEntries, e.end_time = none →
        e.start_time ≤ (TimerOp.stop 1 60).time) ∧
     spentTimeOf dbOpenTimer 1 ≤
       spentTimeOf (applyOp (TimerOp.stop 1 60) (dbOpenTimer, [])).1 1) :=
  ⟨⟨by unfold entryIdsNodup; decide,
    ⟨by unfold freshFor; decide, trivial, by unfold freshFor; decide, trivial, trivial⟩,
    by decide, by decide⟩,
   spent_time_accumulation.1 [TimerOp.start 1 0 1, TimerOp.stop 1 60,
       TimerOp.start 1 100 2, TimerOp.stop 1 160] dbNoTimer [] 1
     (by unfold entryIdsNodup; decide)
     ⟨by unfold freshFor; decide, trivial, by unfold freshFor; decide, trivial, trivial⟩
     (by decide) (by decide),
   ⟨by decide,
    spent_time_accumulation.2 (TimerOp.stop 1 60) dbOpenTimer [] 1 (by decide)⟩⟩

end ProjectTaskAPI
